import Mathlib

/-
Verification development for the Tachora scheduler core
(`services/scheduler/app/solver/cpsat.py` together with the domain model in
`services/scheduler/app/domain/models.py`).

Modelling conventions:
* Minute fields are `Int` (Python ints; `LockedAssignment` carries no range
  validators, so its minutes are genuinely unbounded).
* Strings are Lean `String`s; Python `str.lower()` is modelled by
  `String.toLower` (ASCII lowering, which coincides on the role names the
  validators admit).
* Python code that can raise (the greedy path raises `KeyError` when a locked
  assignment names an employee that is absent from the request) is modelled
  with `Option`: `none` means the exception escapes and no response is
  produced.
* The CP-SAT invocation is external to the repository.  It is modelled as an
  oracle value of type `Option ExactSol`: `some sol` stands for an
  `OPTIMAL`/`FEASIBLE` termination delivering the valuation `sol` of the
  decision variables, `none` for every other termination (INFEASIBLE,
  timeout, MODEL_INVALID), which the source routes to the greedy fallback.
  The predicate `Satisfies` records exactly the constraints the source adds
  to the model, so that quantifying over satisfying oracles captures every
  solution CP-SAT can return.  The top-5 candidate ranking (which uses float
  scores) is abstracted as an arbitrary choice of candidate sublist of the
  feasible employees, recorded in the oracle and constrained by `Satisfies`.
* Dictionaries keyed by id strings are modelled positionally; this coincides
  with the source whenever distinct shifts have distinct ids, the situation
  every theorem concerns.
-/

namespace Scheduler

/-- Weekday enumeration from `domain/models.py`. -/
inductive Weekday where
  | MON | TUE | WED | THU | FRI | SAT | SUN
deriving DecidableEq, Repr

/-- DAY_INDEX mapping from `cpsat.py` (MON=0 .. SUN=6). -/
def dayIndex : Weekday → Int
  | Weekday.MON => 0
  | Weekday.TUE => 1
  | Weekday.WED => 2
  | Weekday.THU => 3
  | Weekday.FRI => 4
  | Weekday.SAT => 5
  | Weekday.SUN => 6

/-- AvailabilitySlot record from `domain/models.py`. -/
structure AvailabilitySlot where
  day : Weekday
  is_off : Bool
  start_minute : Int
  end_minute : Int
deriving DecidableEq, Repr

/-- Employee record from `domain/models.py`. -/
structure Employee where
  id : String
  name : String
  home_store_id : String
  can_work_across_stores : Bool
  contract_type : String
  weekly_minutes_target : Int
  role_ids : List String
  role_names : List String
  availability : List AvailabilitySlot
deriving DecidableEq, Repr

/-- Shift record from `domain/models.py`. -/
structure Shift where
  id : String
  role : String
  day : Weekday
  start_minute : Int
  end_minute : Int
  capacity : Int
  store_id : String
  work_type_id : Option String
deriving DecidableEq, Repr

/-- LockedAssignment record from `domain/models.py`. -/
structure LockedAssignment where
  employee_id : String
  shift_id : String
  day : Weekday
  start_minute : Int
  end_minute : Int
  slot : Int
deriving DecidableEq, Repr

/-- SolveOptions record from `domain/models.py`. -/
structure SolveOptions where
  slot_size_minutes : Int
  solver_time_limit_seconds : Option Int
  allow_uncovered : Bool
  stint_start_penalty : Int
deriving DecidableEq, Repr

/-- SolveRequest record from `domain/models.py`. -/
structure SolveRequest where
  store_id : String
  iso_week : String
  shifts : List Shift
  employees : List Employee
  locked_assignments : List LockedAssignment
  options : SolveOptions
deriving DecidableEq, Repr

/-- AssignmentSegment record from `domain/models.py`. -/
structure AssignmentSegment where
  shift_id : String
  day : Weekday
  employee_id : String
  start_minute : Int
  end_minute : Int
  slot : Int
  locked : Bool
deriving DecidableEq, Repr

/-- SolveMetrics record from `domain/models.py`; `coverage_ratio` (a Python
float produced by exact integer division or the literal `1.0`/`0.0`) is
modelled as a rational. -/
structure SolveMetrics where
  status : String
  objective_value : Option Int
  total_assigned_minutes : Int
  solver_wall_time_ms : Option Int
  coverage_ratio : ℚ
deriving DecidableEq, Repr

/-- SolveResponse record from `domain/models.py`. -/
structure SolveResponse where
  store_id : String
  iso_week : String
  assignments : List AssignmentSegment
  metrics : SolveMetrics
  infeasible_reason : Option String
  uncovered_segments : List AssignmentSegment
deriving DecidableEq, Repr

/-- ShiftSlot record from `cpsat.py`: one slot of a multi-capacity shift. -/
structure ShiftSlot where
  shift : Shift
  slot_number : Int
  locked_employee_id : Option String
deriving DecidableEq, Repr

/-- Contract-type weekly limits from `CPSATSolver._get_weekly_limit`.
STUDENT = 20h, PART_TIME = 32h, FULL_TIME = 40h, otherwise the employee's
personal weekly target. -/
def getWeeklyLimit (e : Employee) : Int :=
  if e.contract_type = "STUDENT" then 1200
  else if e.contract_type = "PART_TIME" then 1920
  else if e.contract_type = "FULL_TIME" then 2400
  else e.weekly_minutes_target

/-- Python truthiness of the optional `work_type_id` field: `None` and the
empty string are falsy. -/
def wtTruthy : Option String → Bool
  | none => false
  | some s => decide (s ≠ "")

/-- Python `str.lower()` as used on role names: character-wise ASCII case
folding (`String.toLower` computed structurally on the character list). -/
def pyLower (s : String) : String := String.mk (s.data.map Char.toLower)

/-- Role-name mismatch test from `_find_feasible_employees_for_shift`:
`emp.role_names and shift.role.lower() not in [r.lower() for r in emp.role_names]`. -/
def nameMatchFails (sh : Shift) (e : Employee) : Bool :=
  decide (e.role_names ≠ []) &&
    !((e.role_names.map pyLower).contains (pyLower sh.role))

/-- Per-employee feasibility predicate of
`CPSATSolver._find_feasible_employees_for_shift`: work-type/role check,
store check, then availability containment. -/
def feasiblePred (sh : Shift) (e : Employee) : Bool :=
  (if wtTruthy sh.work_type_id then
     (if e.home_store_id = sh.store_id then
        (e.role_ids.contains (sh.work_type_id.getD ""))
      else !nameMatchFails sh e)
   else !nameMatchFails sh e)
  && (decide (e.home_store_id = sh.store_id) || e.can_work_across_stores)
  && e.availability.any (fun av =>
       decide (av.day = sh.day) && !av.is_off &&
       decide (av.start_minute ≤ sh.start_minute) &&
       decide (av.end_minute ≥ sh.end_minute))

/-- CPSATSolver._find_feasible_employees_for_shift. -/
def findFeasibleEmployeesForShift (sh : Shift) (emps : List Employee) : List Employee :=
  emps.filter (feasiblePred sh)

/-- CPSATSolver._quick_feasibility_check: false when there are no employees;
true when there are no shifts; otherwise every shift must have a feasible
employee unless uncovered slots are allowed. -/
def quickFeasibilityCheck (req : SolveRequest) : Bool :=
  if req.employees.isEmpty then false
  else if req.shifts.isEmpty then true
  else req.shifts.all (fun sh =>
    !(findFeasibleEmployeesForShift sh req.employees).isEmpty ||
      req.options.allow_uncovered)

/-- Duration of an assignment segment in minutes. -/
def segDur (s : AssignmentSegment) : Int := s.end_minute - s.start_minute

/-- Verbatim output segment for a locked assignment (locked=True), as built in
`_extract_assignments` and `_solve_greedy`. -/
def lockedSeg (la : LockedAssignment) : AssignmentSegment :=
  { shift_id := la.shift_id, day := la.day, employee_id := la.employee_id,
    start_minute := la.start_minute, end_minute := la.end_minute,
    slot := la.slot, locked := true }

/-- Locked minutes of an employee id, as accumulated in
`_calculate_employee_metrics` and the greedy seeding loop. -/
def lockedMinutes (locks : List LockedAssignment) (eid : String) : Int :=
  ((locks.filter (fun la => la.employee_id = eid)).map
    (fun la => la.end_minute - la.start_minute)).sum

/-- Total capacity minutes `Σ (shift.end − shift.start) * shift.capacity`
computed identically in `solve` and `_solve_greedy`. -/
def totalCapacity (req : SolveRequest) : Int :=
  (req.shifts.map (fun sh => (sh.end_minute - sh.start_minute) * sh.capacity)).sum

/-- CPSATSolver._create_infeasible_response. -/
def createInfeasibleResponse (req : SolveRequest) (reason : String) : SolveResponse :=
  { store_id := req.store_id, iso_week := req.iso_week, assignments := [],
    metrics := { status := "INFEASIBLE", objective_value := none,
                 total_assigned_minutes := 0, solver_wall_time_ms := some 10,
                 coverage_ratio := 0 },
    infeasible_reason := some reason, uncovered_segments := [] }

/-- Slot numbers `range(shift.capacity)` (empty for non-positive capacity,
as in Python). -/
def slotNums (cap : Int) : List Int :=
  (List.range cap.toNat).map (fun i => (i : Int))

/-- Exact-match test of a locked assignment against a slot of a shift, the
key lookup of `_build_shift_slots`: the full
(shift id, day, start, end, slot number) tuple must match. -/
def lockedMatchesSlot (sh : Shift) (n : Int) (la : LockedAssignment) : Bool :=
  decide (la.shift_id = sh.id ∧ la.day = sh.day ∧
    la.start_minute = sh.start_minute ∧ la.end_minute = sh.end_minute ∧
    la.slot = n)

/-- CPSATSolver._build_shift_slots (flattened `all_slots` list; the
`slots_by_shift` grouping is this list filtered per shift).  The Python dict
used for the locked lookup keeps the last assignment written for a key, hence
the search over the reversed list. -/
def buildShiftSlots (shifts : List Shift) (locks : List LockedAssignment) :
    List ShiftSlot :=
  shifts.flatMap (fun sh => (slotNums sh.capacity).map (fun n =>
    { shift := sh, slot_number := n,
      locked_employee_id :=
        (locks.reverse.find? (lockedMatchesSlot sh n)).map
          (fun la => la.employee_id) }))

/-- All slots of a request, as consumed by the exact path. -/
def allSlots (req : SolveRequest) : List ShiftSlot :=
  buildShiftSlots req.shifts req.locked_assignments

/-- Mutable state of `_solve_greedy`: the assignment list built so far and the
`employee_workload` dictionary (modelled as a total function; only keys
belonging to request employees are ever read or written once seeding
succeeds). -/
structure GreedyState where
  assignments : List AssignmentSegment
  workload : String → Int

/-- One iteration of the greedy locked-seeding loop.  Python raises `KeyError`
when `locked.employee_id` has no entry in `employee_workload` (whose keys are
exactly the request employees' ids); the exception is modelled by `none`. -/
def seedStep (emps : List Employee) (acc : Option GreedyState)
    (la : LockedAssignment) : Option GreedyState :=
  acc.bind (fun st =>
    if emps.any (fun e => e.id = la.employee_id) then
      some { assignments := st.assignments ++ [lockedSeg la],
             workload := fun k =>
               if k = la.employee_id then
                 st.workload k + (la.end_minute - la.start_minute)
               else st.workload k }
    else none)

/-- Locked-assignment seeding of `_solve_greedy`: emit every locked assignment
verbatim and accumulate its duration into the employee's workload. -/
def seedLocked (req : SolveRequest) : Option GreedyState :=
  req.locked_assignments.foldl (seedStep req.employees)
    (some { assignments := [], workload := fun _ => 0 })

/-- CPSATSolver._has_overlapping_assignment: a same-day interval clash of the
candidate shift with any assignment already recorded for the employee. -/
def hasOverlappingAssignment (eid : String) (sh : Shift)
    (assigns : List AssignmentSegment) : Bool :=
  assigns.any (fun a => decide (a.employee_id = eid ∧ a.day = sh.day ∧
    ¬(sh.end_minute ≤ a.start_minute ∨ sh.start_minute ≥ a.end_minute)))

/-- Strict lexicographic comparison on the greedy sort key
`(workload, -weekly_minutes_target)`. -/
def greedyKeyLt (wl : String → Int) (a b : Employee) : Bool :=
  decide (wl a.id < wl b.id ∨
    (wl a.id = wl b.id ∧ -a.weekly_minutes_target < -b.weekly_minutes_target))

/-- First element of the feasible list after the stable ascending sort on
`(workload, -target)`, i.e. the first employee attaining the minimal key.
Python's stable `list.sort` followed by `feasible[0]` is modelled as a fold
that replaces the current best only on a strictly smaller key. -/
def bestEmployee (wl : String → Int) : List Employee → Option Employee
  | [] => none
  | e :: es => some (es.foldl (fun b x => if greedyKeyLt wl x b then x else b) e)

/-- Newly solved greedy segment, built from the shift template times. -/
def newSegOf (sh : Shift) (n : Int) (eid : String) : AssignmentSegment :=
  { shift_id := sh.id, day := sh.day, employee_id := eid,
    start_minute := sh.start_minute, end_minute := sh.end_minute,
    slot := n, locked := false }

/-- Body of the greedy per-slot loop of `_solve_greedy`: skip slots matched by
a locked assignment on (shift id, slot number) alone, pick the least-loaded
feasible employee, and accept only under the weekly limit and the no-overlap
check. -/
def greedyStep (req : SolveRequest) (sh : Shift) (n : Int)
    (st : GreedyState) : GreedyState :=
  if req.locked_assignments.any (fun la =>
      decide (la.shift_id = sh.id ∧ la.slot = n)) then st
  else
    match bestEmployee st.workload (findFeasibleEmployeesForShift sh req.employees) with
    | none => st
    | some best =>
      if st.workload best.id + (sh.end_minute - sh.start_minute) ≤ getWeeklyLimit best
          ∧ hasOverlappingAssignment best.id sh st.assignments = false then
        { assignments := st.assignments ++ [newSegOf sh n best.id],
          workload := fun k =>
            if k = best.id then
              st.workload k + (sh.end_minute - sh.start_minute)
            else st.workload k }
      else st

/-- The nested shift/slot loops of `_solve_greedy`. -/
def greedyAll (req : SolveRequest) (st0 : GreedyState) : GreedyState :=
  req.shifts.foldl (fun acc sh =>
    (slotNums sh.capacity).foldl (fun a n => greedyStep req sh n a) acc) st0

/-- CPSATSolver._solve_greedy.  Note the metrics: `total_assigned_minutes`
sums only segments with `locked=False` (`if not seg.locked` in the source),
and the coverage ratio divides that same total by the capacity minutes,
defaulting to 1.0 when the capacity total is not positive. -/
def solveGreedy (req : SolveRequest) : Option SolveResponse :=
  (seedLocked req).map (fun st0 =>
    let st := greedyAll req st0
    let total : Int :=
      ((st.assignments.filter (fun s => !s.locked)).map segDur).sum
    { store_id := req.store_id, iso_week := req.iso_week,
      assignments := st.assignments,
      metrics := { status := "GREEDY_SOLUTION", objective_value := none,
                   total_assigned_minutes := total,
                   solver_wall_time_ms := some 50,
                   coverage_ratio :=
                     if 0 < totalCapacity req then
                       (total : ℚ) / (totalCapacity req : ℚ)
                     else 1 },
      infeasible_reason := none, uncovered_segments := [] })

/-- Outcome of a successful (OPTIMAL/FEASIBLE) CP-SAT invocation: the
candidate employees chosen per open slot (the source uses the full feasible
list, or its float-scored top five when longer), the boolean valuation of the
`assign_{emp}_{shift}_{slot}` decision variables keyed as in the source by
(employee id, shift id, slot number), and the remaining solver-reported
data surfaced in the metrics. -/
structure ExactSol where
  cands : Shift → Int → List Employee
  val : String → String → Int → Bool
  statusName : String
  objective : Option Int
  wallMs : Int

/-- Week-absolute start minute of a slot (`ShiftSlot.day_start_minute`). -/
def slotLow (s : ShiftSlot) : Int :=
  dayIndex s.shift.day * 1440 + s.shift.start_minute

/-- Week-absolute end minute of a slot (`ShiftSlot.day_end_minute`). -/
def slotHigh (s : ShiftSlot) : Int :=
  slotLow s + (s.shift.end_minute - s.shift.start_minute)

/-- Presence of the scheduling interval that `_add_no_overlap_constraints`
creates for an employee id on a slot: a locked slot of that employee is
always present, an open slot is present exactly when a decision variable was
created for the pair (the id occurs among the slot's candidates) and the
valuation sets it. -/
def activeFor (sol : ExactSol) (eid : String) (s : ShiftSlot) : Prop :=
  match s.locked_employee_id with
  | some lid => lid = eid
  | none =>
      (∃ e ∈ sol.cands s.shift s.slot_number, e.id = eid) ∧
        sol.val eid s.shift.id s.slot_number = true

/-- Solved segments an open slot contributes to `_extract_assignments`: one
segment per candidate whose variable is valued true, carrying the shift
template times and `locked=False`. -/
def slotSolvedSegs (sol : ExactSol) (s : ShiftSlot) : List AssignmentSegment :=
  if s.locked_employee_id = none then
    (sol.cands s.shift s.slot_number).filterMap (fun e =>
      if sol.val e.id s.shift.id s.slot_number then
        some (newSegOf s.shift s.slot_number e.id)
      else none)
  else []

/-- All solved segments of `_extract_assignments`, in variable-creation
order. -/
def solvedSegs (req : SolveRequest) (sol : ExactSol) : List AssignmentSegment :=
  (allSlots req).flatMap (slotSolvedSegs sol)

/-- Assigned open-slot minutes of one employee id under a valuation: the sum
`Σ slot.duration * assign_var` of the workload constraint in `solve`. -/
def exactAssignedMinutes (req : SolveRequest) (sol : ExactSol) (eid : String) : Int :=
  ((allSlots req).map (fun s =>
    if s.locked_employee_id = none ∧
        (∃ e ∈ sol.cands s.shift s.slot_number, e.id = eid) ∧
        sol.val eid s.shift.id s.slot_number = true then
      s.shift.end_minute - s.shift.start_minute
    else 0)).sum

/-- Constraints the source adds to the CP-SAT model, as facts about an oracle
outcome; any solution CP-SAT reports as OPTIMAL or FEASIBLE satisfies them.
`cands_feasible`/`cands_nodup`/`cands_top` describe the candidate lists
(variables exist only for feasible employees, listed without repeated ids,
nonempty whenever the feasible list is); `cands_cover` is the
exactly-one-per-open-slot coverage constraint; `no_overlap` is the
`AddNoOverlap` constraint over each employee's intervals in week-absolute
minutes; `workload_le` combines the per-employee workload equality with the
`weekly_limit` upper bound of the `employee_minutes` variable. -/
structure Satisfies (req : SolveRequest) (sol : ExactSol) : Prop where
  cands_feasible : ∀ s ∈ allSlots req, ∀ e ∈ sol.cands s.shift s.slot_number,
    e ∈ findFeasibleEmployeesForShift s.shift req.employees
  cands_nodup : ∀ s ∈ allSlots req,
    (sol.cands s.shift s.slot_number).Pairwise (fun a b => a.id ≠ b.id)
  cands_top : ∀ s ∈ allSlots req,
    findFeasibleEmployeesForShift s.shift req.employees ≠ [] →
    sol.cands s.shift s.slot_number ≠ []
  cands_cover : ∀ s ∈ allSlots req, s.locked_employee_id = none →
    findFeasibleEmployeesForShift s.shift req.employees ≠ [] →
    (sol.cands s.shift s.slot_number).countP
      (fun e => sol.val e.id s.shift.id s.slot_number) = 1
  no_overlap : ∀ e ∈ req.employees, (allSlots req).Pairwise (fun s1 s2 =>
    activeFor sol e.id s1 → activeFor sol e.id s2 →
    slotHigh s1 ≤ slotLow s2 ∨ slotHigh s2 ≤ slotLow s1)
  workload_le : ∀ e ∈ req.employees,
    lockedMinutes req.locked_assignments e.id +
      exactAssignedMinutes req sol e.id ≤ getWeeklyLimit e
  status_ok : sol.statusName = "OPTIMAL" ∨ sol.statusName = "FEASIBLE"

/-- Response of the exact path on a successful solve: locked assignments
verbatim followed by the solved segments (`_extract_assignments`), metrics
summing the durations of the full assignment list. -/
def exactResponse (req : SolveRequest) (sol : ExactSol) : SolveResponse :=
  let assignments := req.locked_assignments.map lockedSeg ++ solvedSegs req sol
  let total : Int := (assignments.map segDur).sum
  { store_id := req.store_id, iso_week := req.iso_week,
    assignments := assignments,
    metrics := { status := sol.statusName, objective_value := sol.objective,
                 total_assigned_minutes := total,
                 solver_wall_time_ms := some sol.wallMs,
                 coverage_ratio :=
                   if 0 < totalCapacity req then
                     (total : ℚ) / (totalCapacity req : ℚ)
                   else 1 },
    infeasible_reason := none, uncovered_segments := [] }

/-- CPSATSolver.solve.  Control flow of the source: quick feasibility check
first, then the size threshold routing large requests to the greedy
algorithm, then the CP-SAT invocation whose non-OPTIMAL/FEASIBLE outcomes
(`res = none`) all fall back to the greedy algorithm; the dead
infeasibility-diagnostics branch after that early return is unreachable and
has no counterpart here. -/
def solve (req : SolveRequest) (res : Option ExactSol) : Option SolveResponse :=
  if quickFeasibilityCheck req = false then
    some (createInfeasibleResponse req ("Quick feasibility check failed"))
  else if 50 < req.shifts.length ∨ 25 < req.employees.length then
    solveGreedy req
  else
    match res with
    | some sol => some (exactResponse req sol)
    | none => solveGreedy req

/-- Disjointness property of the no-overlap claim restricted to pairs of
newly solved (non-locked) segments of one employee on one day. -/
def noClashNonLocked (a b : AssignmentSegment) : Prop :=
  a.locked = false → b.locked = false → a.employee_id = b.employee_id →
    a.day = b.day →
    (a.end_minute ≤ b.start_minute ∨ b.end_minute ≤ a.start_minute)

/-- Stronger disjointness maintained by the greedy loop: only the later
segment of the pair needs to be non-locked. -/
def noClashNew (a b : AssignmentSegment) : Prop :=
  b.locked = false → a.employee_id = b.employee_id → a.day = b.day →
    (a.end_minute ≤ b.start_minute ∨ b.end_minute ≤ a.start_minute)

/-- Full-day availability window on one weekday, used by concrete test
requests. -/
def fullAvail (d : Weekday) : AvailabilitySlot :=
  { day := d, is_off := false, start_minute := 0, end_minute := 1440 }

/-- Default options record (the pydantic defaults). -/
def defOpts : SolveOptions :=
  { slot_size_minutes := 15, solver_time_limit_seconds := some 15,
    allow_uncovered := false, stint_start_penalty := 50 }

/-- Options with uncovered slots allowed. -/
def uncovOpts : SolveOptions :=
  { slot_size_minutes := 15, solver_time_limit_seconds := some 15,
    allow_uncovered := true, stint_start_penalty := 50 }

/-- Student employee number i of the home store, fully available Monday and
Tuesday, with no roles. -/
def stuEmp (i : Nat) : Employee :=
  { id := "e" ++ toString i, name := "E", home_store_id := "s",
    can_work_across_stores := false, contract_type := "STUDENT",
    weekly_minutes_target := 1200, role_ids := [], role_names := [],
    availability := [fullAvail Weekday.MON, fullAvail Weekday.TUE] }

/-- Twenty-six employees, one more than the greedy size threshold. -/
def manyEmps : List Employee := (List.range 26).map stuEmp

/-- First of two overlapping Monday locked assignments for employee e0. -/
def c1la1 : LockedAssignment :=
  { employee_id := "e0", shift_id := "x", day := Weekday.MON,
    start_minute := 0, end_minute := 120, slot := 0 }

/-- Second of two overlapping Monday locked assignments for employee e0. -/
def c1la2 : LockedAssignment :=
  { employee_id := "e0", shift_id := "y", day := Weekday.MON,
    start_minute := 60, end_minute := 180, slot := 0 }

/-- Large request (26 employees) whose two locked assignments overlap on the
same day for the same employee. -/
def c1req : SolveRequest :=
  { store_id := "s", iso_week := "w", shifts := [], employees := manyEmps,
    locked_assignments := [c1la1, c1la2], options := defOpts }

/-- Response the greedy path produces for `c1req`. -/
def c1resp : SolveResponse :=
  { store_id := "s", iso_week := "w",
    assignments := [lockedSeg c1la1, lockedSeg c1la2],
    metrics := { status := "GREEDY_SOLUTION", objective_value := none,
                 total_assigned_minutes := 0, solver_wall_time_ms := some 50,
                 coverage_ratio := 1 },
    infeasible_reason := none, uncovered_segments := [] }

/-- Locked assignment inside a request that has no employees. -/
def c2la : LockedAssignment :=
  { employee_id := "e0", shift_id := "x", day := Weekday.MON,
    start_minute := 0, end_minute := 60, slot := 0 }

/-- Request with a locked assignment but no employees: the quick feasibility
check fails. -/
def c2req : SolveRequest :=
  { store_id := "s", iso_week := "w", shifts := [], employees := [],
    locked_assignments := [c2la], options := defOpts }

/-- Sixty-minute locked assignment for employee e0. -/
def c3la : LockedAssignment :=
  { employee_id := "e0", shift_id := "x", day := Weekday.MON,
    start_minute := 0, end_minute := 60, slot := 0 }

/-- Large request carrying one locked assignment and no shifts. -/
def c3req : SolveRequest :=
  { store_id := "s", iso_week := "w", shifts := [], employees := manyEmps,
    locked_assignments := [c3la], options := defOpts }

/-- Employee of the infeasible-model request. -/
def c4emp : Employee :=
  { id := "e1", name := "E", home_store_id := "s",
    can_work_across_stores := false, contract_type := "STUDENT",
    weekly_minutes_target := 1200, role_ids := [], role_names := [],
    availability := [fullAvail Weekday.MON] }

/-- First shift (Monday 0-120) of the infeasible-model request. -/
def c4sh1 : Shift :=
  { id := "s1", role := "R", day := Weekday.MON, start_minute := 0,
    end_minute := 120, capacity := 1, store_id := "s", work_type_id := none }

/-- Second shift (Monday 60-180) of the infeasible-model request. -/
def c4sh2 : Shift :=
  { id := "s2", role := "R", day := Weekday.MON, start_minute := 60,
    end_minute := 180, capacity := 1, store_id := "s", work_type_id := none }

/-- Lock of e1 onto slot 0 of the first shift, matching its template. -/
def c4la1 : LockedAssignment :=
  { employee_id := "e1", shift_id := "s1", day := Weekday.MON,
    start_minute := 0, end_minute := 120, slot := 0 }

/-- Lock of e1 onto slot 0 of the second shift, matching its template. -/
def c4la2 : LockedAssignment :=
  { employee_id := "e1", shift_id := "s2", day := Weekday.MON,
    start_minute := 60, end_minute := 180, slot := 0 }

/-- Request whose CP-SAT model is infeasible: the same employee is locked
into two overlapping template-matching slots, so the fixed intervals of the
no-overlap constraint clash. -/
def c4req : SolveRequest :=
  { store_id := "s", iso_week := "w", shifts := [c4sh1, c4sh2],
    employees := [c4emp], locked_assignments := [c4la1, c4la2],
    options := uncovOpts }

/-- Student employee with an empty availability list. -/
def busyEmp (i : Nat) : Employee :=
  { id := "e" ++ toString i, name := "E", home_store_id := "s",
    can_work_across_stores := false, contract_type := "STUDENT",
    weekly_minutes_target := 1200, role_ids := [], role_names := [],
    availability := [] }

/-- Shift nobody of `c6req` can staff. -/
def c6shift : Shift :=
  { id := "sh6", role := "R", day := Weekday.MON, start_minute := 480,
    end_minute := 960, capacity := 1, store_id := "s", work_type_id := none }

/-- Request over the employee-count threshold that still fails the quick
feasibility check: its single shift has no feasible employee and uncovered
slots are disallowed. -/
def c6req : SolveRequest :=
  { store_id := "s", iso_week := "w", shifts := [c6shift],
    employees := (List.range 26).map busyEmp, locked_assignments := [],
    options := defOpts }

/-- Six-hundred-minute Monday lock for employee e0. -/
def c7la1 : LockedAssignment :=
  { employee_id := "e0", shift_id := "x", day := Weekday.MON,
    start_minute := 0, end_minute := 600, slot := 0 }

/-- Seven-hundred-minute Tuesday lock for employee e0. -/
def c7la2 : LockedAssignment :=
  { employee_id := "e0", shift_id := "y", day := Weekday.TUE,
    start_minute := 0, end_minute := 700, slot := 0 }

/-- Large request whose locked assignments alone give the student e0 1300
minutes, beyond the 1200-minute student weekly limit. -/
def c7req : SolveRequest :=
  { store_id := "s", iso_week := "w", shifts := [], employees := manyEmps,
    locked_assignments := [c7la1, c7la2], options := defOpts }

/-- Employee used by the witness requests: one role name, fully available on
Monday. -/
def wEmp : Employee :=
  { id := "e0", name := "E", home_store_id := "s",
    can_work_across_stores := false, contract_type := "STUDENT",
    weekly_minutes_target := 1200, role_ids := [], role_names := ["cashier"],
    availability := [fullAvail Weekday.MON] }

/-- Monday cashier shift of the witness requests. -/
def wShift : Shift :=
  { id := "sh1", role := "Cashier", day := Weekday.MON, start_minute := 480,
    end_minute := 960, capacity := 1, store_id := "s", work_type_id := none }

/-- Witness request: one employee, one staffable shift, no locks. -/
def wreq1 : SolveRequest :=
  { store_id := "s", iso_week := "w", shifts := [wShift], employees := [wEmp],
    locked_assignments := [], options := defOpts }

/-- Greedy response for `wreq1`. -/
def wresp1 : SolveResponse :=
  { store_id := "s", iso_week := "w",
    assignments := [newSegOf wShift 0 "e0"],
    metrics := { status := "GREEDY_SOLUTION", objective_value := none,
                 total_assigned_minutes := 480, solver_wall_time_ms := some 50,
                 coverage_ratio := ((480 : Int) : ℚ) / ((480 : Int) : ℚ) },
    infeasible_reason := none, uncovered_segments := [] }

/-- Locked assignment of the second witness request. -/
def wlock2 : LockedAssignment :=
  { employee_id := "e0", shift_id := "x", day := Weekday.MON,
    start_minute := 0, end_minute := 60, slot := 0 }

/-- Witness request: one employee, no shifts, one locked assignment. -/
def wreq2 : SolveRequest :=
  { store_id := "s", iso_week := "w", shifts := [], employees := [wEmp],
    locked_assignments := [wlock2], options := defOpts }

/-- Greedy response for `wreq2`. -/
def wresp2 : SolveResponse :=
  { store_id := "s", iso_week := "w",
    assignments := [lockedSeg wlock2],
    metrics := { status := "GREEDY_SOLUTION", objective_value := none,
                 total_assigned_minutes := 0, solver_wall_time_ms := some 50,
                 coverage_ratio := 1 },
    infeasible_reason := none, uncovered_segments := [] }

/-- Lock matching `wShift`'s id and slot but not its day or times. -/
def wlock10 : LockedAssignment :=
  { employee_id := "e0", shift_id := "sh1", day := Weekday.TUE,
    start_minute := 0, end_minute := 60, slot := 0 }

/-- Witness request for the locked-slot semantics: the lock matches the shift
only on (shift id, slot number). -/
def wreq10 : SolveRequest :=
  { store_id := "s", iso_week := "w", shifts := [wShift], employees := [wEmp],
    locked_assignments := [wlock10], options := defOpts }

/-- Greedy response for `wreq10`: the slot is skipped, only the lock is
emitted. -/
def w10resp : SolveResponse :=
  { store_id := "s", iso_week := "w",
    assignments := [lockedSeg wlock10],
    metrics := { status := "GREEDY_SOLUTION", objective_value := none,
                 total_assigned_minutes := 0, solver_wall_time_ms := some 50,
                 coverage_ratio := ((0 : Int) : ℚ) / ((480 : Int) : ℚ) },
    infeasible_reason := none, uncovered_segments := [] }

/-- Trivial exact-solver outcome used to instantiate exact-path statements. -/
def trivSol : ExactSol :=
  { cands := fun _ _ => [], val := fun _ _ _ => false,
    statusName := "OPTIMAL", objective := none, wallMs := 0 }

/-- Cross-store shift of another store that declares a work-type id. -/
def crShift : Shift :=
  { id := "sh8", role := "Cashier", day := Weekday.MON, start_minute := 480,
    end_minute := 960, capacity := 1, store_id := "t",
    work_type_id := some "W1" }

/-- Cross-store employee whose role identifiers differ from the shift's
work-type id but whose role names contain the role case-insensitively. -/
def crEmp : Employee :=
  { id := "e8", name := "E", home_store_id := "s",
    can_work_across_stores := true, contract_type := "FULL_TIME",
    weekly_minutes_target := 2400, role_ids := ["OTHER"],
    role_names := ["cashier"], availability := [fullAvail Weekday.MON] }

/-- Shift without a work-type id, used by the empty-role-names witness. -/
def nrShift : Shift :=
  { id := "sh9", role := "Baker", day := Weekday.MON, start_minute := 480,
    end_minute := 960, capacity := 1, store_id := "s", work_type_id := none }

/-- Employee with an empty role-name list. -/
def nrEmp : Employee :=
  { id := "e9", name := "E", home_store_id := "s",
    can_work_across_stores := false, contract_type := "FULL_TIME",
    weekly_minutes_target := 2400, role_ids := [], role_names := [],
    availability := [fullAvail Weekday.MON] }

/-- Preservation of a predicate along a left fold. -/
theorem foldl_inv {α β : Type _} (f : β → α → β) (P : β → Prop)
    (h : ∀ b a, P b → P (f b a)) :
    ∀ (l : List α) (b : β), P b → P (l.foldl f b)
  | [], _, hb => hb
  | a :: l, b, hb => foldl_inv f P h l (f b a) (h b a hb)

/-- Preservation of a state predicate through the nested greedy loops. -/
theorem greedyAll_inv (req : SolveRequest) (P : GreedyState → Prop)
    (h : ∀ st sh n, P st → P (greedyStep req sh n st)) :
    ∀ st0, P st0 → P (greedyAll req st0) := by
  intro st0 h0
  unfold greedyAll
  refine foldl_inv _ P ?_ _ _ h0
  intro b sh hb
  exact foldl_inv _ P (fun b2 n hb2 => h b2 sh n hb2) _ b hb

/-- Seeding that has already failed stays failed. -/
theorem seed_foldl_none (emps : List Employee) :
    ∀ locks : List LockedAssignment, locks.foldl (seedStep emps) none = none
  | [] => rfl
  | la :: locks => by
    simp only [List.foldl_cons]
    have h : seedStep emps none la = none := rfl
    rw [h]
    exact seed_foldl_none emps locks

/-- Splitting `lockedMinutes` over a cons cell. -/
theorem lockedMinutes_cons (la : LockedAssignment)
    (locks : List LockedAssignment) (k : String) :
    lockedMinutes (la :: locks) k =
      (if la.employee_id = k then la.end_minute - la.start_minute else 0) +
        lockedMinutes locks k := by
  unfold lockedMinutes
  by_cases h : la.employee_id = k <;> simp [List.filter_cons, h]

/-- Closed form of a successful seeding fold: the locked assignments are
emitted verbatim in order and every key's workload grows by its locked
minutes. -/
theorem seed_foldl_spec (emps : List Employee) :
    ∀ (locks : List LockedAssignment) (st0 st : GreedyState),
      locks.foldl (seedStep emps) (some st0) = some st →
      st.assignments = st0.assignments ++ locks.map lockedSeg ∧
        ∀ k, st.workload k = st0.workload k + lockedMinutes locks k := by
  intro locks
  induction locks with
  | nil =>
    intro st0 st h
    simp only [List.foldl_nil, Option.some.injEq] at h
    subst h
    constructor
    · simp
    · intro k; simp [lockedMinutes]
  | cons la locks ih =>
    intro st0 st h
    simp only [List.foldl_cons] at h
    by_cases hmem : emps.any (fun e => e.id = la.employee_id) = true
    · have hstep : seedStep emps (some st0) la =
          some { assignments := st0.assignments ++ [lockedSeg la],
                 workload := fun k =>
                   if k = la.employee_id then
                     st0.workload k + (la.end_minute - la.start_minute)
                   else st0.workload k } := by
        simp [seedStep, hmem]
      rw [hstep] at h
      rcases ih _ _ h with ⟨hassign, hwork⟩
      constructor
      · rw [hassign]; simp
      · intro k
        rw [hwork k, lockedMinutes_cons]
        by_cases hk : k = la.employee_id
        · subst hk; simp only [if_true, eq_self_iff_true]; ring
        · have hk2 : ¬ la.employee_id = k := fun hc => hk hc.symm
          simp only [if_neg hk, if_neg hk2]; ring
    · have hstep : seedStep emps (some st0) la = none := by
        simp [seedStep, hmem]
      rw [hstep, seed_foldl_none] at h
      exact absurd h (by simp)

/-- Characterization of a successful greedy seeding. -/
theorem seedLocked_spec (req : SolveRequest) (st : GreedyState)
    (h : seedLocked req = some st) :
    st.assignments = req.locked_assignments.map lockedSeg ∧
      ∀ k, st.workload k = lockedMinutes req.locked_assignments k := by
  rcases seed_foldl_spec req.employees req.locked_assignments _ _ h with ⟨h1, h2⟩
  refine ⟨by simpa using h1, fun k => by simpa using h2 k⟩

/-- Characterization of a successful greedy solve: the response fields in
terms of the final loop state. -/
theorem solveGreedy_spec (req : SolveRequest) (resp : SolveResponse)
    (h : solveGreedy req = some resp) :
    ∃ st0, seedLocked req = some st0 ∧
      resp.assignments = (greedyAll req st0).assignments ∧
      resp.metrics.status = "GREEDY_SOLUTION" ∧
      resp.metrics.total_assigned_minutes =
        ((((greedyAll req st0).assignments.filter (fun s => !s.locked)).map segDur).sum) ∧
      resp.metrics.coverage_ratio =
        (if 0 < totalCapacity req then
          (((((greedyAll req st0).assignments.filter (fun s => !s.locked)).map segDur).sum : Int) : ℚ) /
            (totalCapacity req : ℚ)
         else 1) ∧
      resp.infeasible_reason = none := by
  rcases Option.map_eq_some'.mp h with ⟨st0, hseed, hresp⟩
  subst hresp
  exact ⟨st0, hseed, rfl, rfl, rfl, rfl, rfl⟩

/-- The folded minimum selection stays inside the candidate list. -/
theorem best_foldl_mem (wl : String → Int) :
    ∀ (es : List Employee) (b : Employee),
      es.foldl (fun b x => if greedyKeyLt wl x b then x else b) b ∈ b :: es := by
  intro es
  induction es with
  | nil => intro b; exact List.mem_singleton.mpr rfl
  | cons x es ih =>
    intro b
    simp only [List.foldl_cons]
    by_cases hlt : greedyKeyLt wl x b = true
    · rw [if_pos hlt]
      rcases List.mem_cons.mp (ih x) with h | h
      · rw [h]; exact List.mem_cons_of_mem _ (List.mem_cons_self _ _)
      · exact List.mem_cons_of_mem _ (List.mem_cons_of_mem _ h)
    · rw [if_neg hlt]
      rcases List.mem_cons.mp (ih b) with h | h
      · rw [h]; exact List.mem_cons_self _ _
      · exact List.mem_cons_of_mem _ (List.mem_cons_of_mem _ h)

/-- The employee the greedy pick returns belongs to the candidate list. -/
theorem bestEmployee_mem (wl : String → Int) (l : List Employee) (e : Employee)
    (h : bestEmployee wl l = some e) : e ∈ l := by
  cases l with
  | nil => exact absurd h (by simp [bestEmployee])
  | cons b es =>
    simp only [bestEmployee, Option.some.injEq] at h
    rw [← h]
    exact best_foldl_mem wl es b

/-- Feasible employees are request employees. -/
theorem feasible_mem (sh : Shift) (emps : List Employee) (e : Employee)
    (h : e ∈ findFeasibleEmployeesForShift sh emps) : e ∈ emps :=
  (List.mem_filter.mp h).1

/-- Case analysis of one greedy slot iteration: either the state is
unchanged, or a feasible best employee passing the skip, weekly-limit and
overlap guards is appended. -/
theorem greedyStep_cases (req : SolveRequest) (sh : Shift) (n : Int)
    (st : GreedyState) :
    greedyStep req sh n st = st ∨
    ∃ best ∈ findFeasibleEmployeesForShift sh req.employees,
      (req.locked_assignments.any (fun la =>
        decide (la.shift_id = sh.id ∧ la.slot = n))) = false ∧
      st.workload best.id + (sh.end_minute - sh.start_minute) ≤ getWeeklyLimit best ∧
      hasOverlappingAssignment best.id sh st.assignments = false ∧
      greedyStep req sh n st =
        { assignments := st.assignments ++ [newSegOf sh n best.id],
          workload := fun k =>
            if k = best.id then
              st.workload k + (sh.end_minute - sh.start_minute)
            else st.workload k } := by
  unfold greedyStep
  by_cases hskip : (req.locked_assignments.any (fun la =>
      decide (la.shift_id = sh.id ∧ la.slot = n))) = true
  · left; rw [if_pos hskip]
  · rw [if_neg hskip]
    cases hbest : bestEmployee st.workload
        (findFeasibleEmployeesForShift sh req.employees) with
    | none => left; rfl
    | some best =>
      by_cases hacc : st.workload best.id + (sh.end_minute - sh.start_minute) ≤
            getWeeklyLimit best ∧
          hasOverlappingAssignment best.id sh st.assignments = false
      · right
        exact ⟨best, bestEmployee_mem _ _ _ hbest,
          Bool.eq_false_iff.mpr hskip, hacc.1, hacc.2, if_pos hacc⟩
      · left; exact if_neg hacc

/-- Any response the greedy path produces keeps, for each pair of segments
in emission order, the later-segment-not-locked disjointness: every newly
solved segment was checked by `_has_overlapping_assignment` against all
segments already recorded, locked ones included. -/
theorem greedy_pairwise (req : SolveRequest) (resp : SolveResponse)
    (h : solveGreedy req = some resp) :
    resp.assignments.Pairwise noClashNew := by
  rcases solveGreedy_spec req resp h with ⟨st0, hseed, hassign, -⟩
  rw [hassign]
  have hP : st0.assignments.Pairwise noClashNew := by
    rw [(seedLocked_spec req st0 hseed).1]
    refine List.pairwise_map.mpr (List.pairwise_of_forall ?_)
    intro a b hlocked
    exact absurd hlocked (by simp [lockedSeg])
  refine greedyAll_inv req (fun st => st.assignments.Pairwise noClashNew) ?_ st0 hP
  intro st sh n hPst
  rcases greedyStep_cases req sh n st with heq | ⟨best, hmem, hskip, hlim, hov, heq⟩
  · rw [heq]; exact hPst
  · rw [heq]
    refine List.pairwise_append.mpr ⟨hPst, List.pairwise_singleton _ _, ?_⟩
    intro a ha b hb
    rcases List.mem_singleton.mp hb with rfl
    intro _ hemp hday
    have hall := List.any_eq_false.mp hov a ha
    simp only [decide_eq_true_eq] at hall
    simp only [newSegOf] at hemp hday ⊢
    push_neg at hall
    have hdisj := hall hemp hday
    by_cases hcase : sh.end_minute ≤ a.start_minute
    · right; exact hcase
    · left
      have := hdisj.resolve_left hcase
      omega

/-- Every locked assignment of the request appears verbatim in a successful
greedy response. -/
theorem greedy_contains_locked (req : SolveRequest) (resp : SolveResponse)
    (h : solveGreedy req = some resp) :
    ∀ la ∈ req.locked_assignments, lockedSeg la ∈ resp.assignments := by
  rcases solveGreedy_spec req resp h with ⟨st0, hseed, hassign, -⟩
  rw [hassign]
  have hP : ∀ la ∈ req.locked_assignments, lockedSeg la ∈ st0.assignments := by
    intro la hla
    rw [(seedLocked_spec req st0 hseed).1]
    exact List.mem_map_of_mem lockedSeg hla
  refine greedyAll_inv req
    (fun st => ∀ la ∈ req.locked_assignments, lockedSeg la ∈ st.assignments)
    ?_ st0 hP
  intro st sh n hPst
  rcases greedyStep_cases req sh n st with heq | ⟨best, _, _, _, _, heq⟩
  · rw [heq]; exact hPst
  · rw [heq]
    intro la hla
    exact List.mem_append_left _ (hPst la hla)

/-- A non-locked segment of a successful greedy response never occupies a
(shift id, slot number) pair claimed by any locked assignment: the greedy
loop skips such slots on shift id and slot number alone. -/
theorem greedy_skips_locked_slots (req : SolveRequest) (resp : SolveResponse)
    (h : solveGreedy req = some resp) :
    ∀ seg ∈ resp.assignments, seg.locked = false →
      ∀ la ∈ req.locked_assignments,
        ¬(seg.shift_id = la.shift_id ∧ seg.slot = la.slot) := by
  rcases solveGreedy_spec req resp h with ⟨st0, hseed, hassign, -⟩
  rw [hassign]
  have hP : ∀ seg ∈ st0.assignments, seg.locked = false →
      ∀ la ∈ req.locked_assignments,
        ¬(seg.shift_id = la.shift_id ∧ seg.slot = la.slot) := by
    intro seg hseg hfalse
    rw [(seedLocked_spec req st0 hseed).1] at hseg
    rcases List.mem_map.mp hseg with ⟨la, -, rfl⟩
    exact absurd hfalse (by simp [lockedSeg])
  refine greedyAll_inv req (fun st => ∀ seg ∈ st.assignments, seg.locked = false →
    ∀ la ∈ req.locked_assignments,
      ¬(seg.shift_id = la.shift_id ∧ seg.slot = la.slot)) ?_ st0 hP
  intro st sh n hPst
  rcases greedyStep_cases req sh n st with heq | ⟨best, _, hskip, _, _, heq⟩
  · rw [heq]; exact hPst
  · rw [heq]
    intro seg hseg hfalse la hla
    rcases List.mem_append.mp hseg with hmem | hmem
    · exact hPst seg hmem hfalse la hla
    · rcases List.mem_singleton.mp hmem with rfl
      have hall := List.any_eq_false.mp hskip la hla
      simp only [decide_eq_true_eq] at hall
      simp only [newSegOf]
      intro hc
      exact hall ⟨hc.1.symm, hc.2.symm⟩

/-- Summing segment durations over the locked segments of one employee id
recovers that id's locked minutes. -/
theorem locked_filter_sum (locks : List LockedAssignment) (k : String) :
    (((locks.map lockedSeg).filter (fun s => s.employee_id = k)).map segDur).sum =
      lockedMinutes locks k := by
  induction locks with
  | nil => simp [lockedMinutes]
  | cons la locks ih =>
    rw [lockedMinutes_cons]
    simp only [List.map_cons, List.filter_cons]
    by_cases h : la.employee_id = k
    · simp [lockedSeg, segDur, h, ih]
    · simp [lockedSeg, segDur, h, ih]

/-- Workload invariant of the greedy loop: provided employee ids are unique
and every employee's locked minutes fit the weekly limit, each employee's
summed segment durations in a successful greedy response stay within the
contract-derived weekly limit. -/
theorem greedy_weekly_limit (req : SolveRequest) (resp : SolveResponse)
    (hids : (req.employees.map Employee.id).Nodup)
    (hlock : ∀ e ∈ req.employees,
      lockedMinutes req.locked_assignments e.id ≤ getWeeklyLimit e)
    (h : solveGreedy req = some resp) :
    ∀ e ∈ req.employees,
      ((resp.assignments.filter (fun s => s.employee_id = e.id)).map segDur).sum ≤
        getWeeklyLimit e := by
  rcases solveGreedy_spec req resp h with ⟨st0, hseed, hassign, -⟩
  rw [hassign]
  have hmain : (∀ k, (greedyAll req st0).workload k =
        ((((greedyAll req st0).assignments.filter
          (fun s => s.employee_id = k)).map segDur).sum)) ∧
      ∀ e ∈ req.employees,
        (greedyAll req st0).workload e.id ≤ getWeeklyLimit e := by
    refine greedyAll_inv req (fun st =>
      (∀ k, st.workload k =
        (((st.assignments.filter (fun s => s.employee_id = k)).map segDur).sum)) ∧
      ∀ e ∈ req.employees, st.workload e.id ≤ getWeeklyLimit e) ?_ st0 ?_
    · intro st sh n hPst
      rcases greedyStep_cases req sh n st with heq | ⟨best, hmem, _, hlim, _, heq⟩
      · rw [heq]; exact hPst
      · rw [heq]
        rcases hPst with ⟨hw, hb⟩
        constructor
        · intro k
          dsimp only
          simp only [List.filter_append, List.map_append, List.sum_append]
          by_cases hk : k = best.id
          · rw [if_pos hk, hw k]
            subst hk
            simp [newSegOf, segDur]
          · rw [if_neg hk, hw k]
            have hne : ¬ (newSegOf sh n best.id).employee_id = k := by
              simp only [newSegOf]
              exact fun hc => hk hc.symm
            simp [List.filter_cons, hne]
        · intro e he
          dsimp only
          by_cases hk : e.id = best.id
          · rw [if_pos hk]
            have hbe : e = best :=
              List.inj_on_of_nodup_map hids he
                (feasible_mem _ _ _ hmem) hk
            rw [hk]
            rw [hbe]
            exact hlim
          · rw [if_neg hk]
            exact hb e he
    · constructor
      · intro k
        rw [(seedLocked_spec req st0 hseed).2 k,
          (seedLocked_spec req st0 hseed).1, locked_filter_sum]
      · intro e he
        rw [(seedLocked_spec req st0 hseed).2 e.id]
        exact hlock e he
  intro e he
  rw [← hmain.1 e.id]
  exact hmain.2 e he

/-- Inversion of membership in the solved segments of a slot. -/
theorem mem_slotSolvedSegs (sol : ExactSol) (s : ShiftSlot)
    (x : AssignmentSegment) (h : x ∈ slotSolvedSegs sol s) :
    s.locked_employee_id = none ∧
      ∃ e ∈ sol.cands s.shift s.slot_number,
        sol.val e.id s.shift.id s.slot_number = true ∧
        x = newSegOf s.shift s.slot_number e.id := by
  unfold slotSolvedSegs at h
  by_cases hl : s.locked_employee_id = none
  · rw [if_pos hl] at h
    rcases List.mem_filterMap.mp h with ⟨e, he, hx⟩
    by_cases hv : sol.val e.id s.shift.id s.slot_number = true
    · rw [if_pos hv] at hx
      injection hx with hx
      exact ⟨hl, e, he, hv, hx.symm⟩
    · rw [if_neg hv] at hx
      exact absurd hx (by simp)
  · rw [if_neg hl] at h
    exact absurd h (by simp)

/-- Solved segments carry `locked = false`. -/
theorem slotSolvedSegs_not_locked (sol : ExactSol) (s : ShiftSlot)
    (x : AssignmentSegment) (h : x ∈ slotSolvedSegs sol s) : x.locked = false := by
  rcases mem_slotSolvedSegs sol s x h with ⟨-, e, -, -, rfl⟩
  rfl

/-- Under the model constraints, the solved segments of the exact path are
pairwise compatible in the sense of `noClashNonLocked`: within a slot the
candidate ids differ, and across slots the `AddNoOverlap` intervals forbid a
same-employee clash. -/
theorem solvedSegs_pairwise (req : SolveRequest) (sol : ExactSol)
    (hs : Satisfies req sol) :
    (solvedSegs req sol).Pairwise noClashNonLocked := by
  unfold solvedSegs
  rw [List.pairwise_flatMap]
  constructor
  · intro s hmem
    unfold slotSolvedSegs
    by_cases hl : s.locked_employee_id = none
    · rw [if_pos hl]
      rw [List.pairwise_filterMap]
      refine (hs.cands_nodup s hmem).imp ?_
      intro e1 e2 hne x hx y hy
      by_cases hv1 : sol.val e1.id s.shift.id s.slot_number = true
      · rw [if_pos hv1, Option.mem_some_iff] at hx
        subst hx
        by_cases hv2 : sol.val e2.id s.shift.id s.slot_number = true
        · rw [if_pos hv2, Option.mem_some_iff] at hy
          subst hy
          intro _ _ hemp
          simp only [newSegOf] at hemp
          exact absurd hemp hne
        · rw [if_neg hv2] at hy
          exact absurd hy (by simp)
      · rw [if_neg hv1] at hx
        exact absurd hx (by simp)
    · rw [if_neg hl]
      exact List.Pairwise.nil
  · rw [List.pairwise_iff_getElem]
    intro i j hi hj hij
    intro x hx y hy
    intro _ _ hemp hday
    rcases mem_slotSolvedSegs sol _ x hx with ⟨hopen1, e1, he1, hv1, rfl⟩
    rcases mem_slotSolvedSegs sol _ y hy with ⟨hopen2, e2, he2, hv2, rfl⟩
    simp only [newSegOf] at hemp hday ⊢
    have hmem1 : (allSlots req)[i] ∈ allSlots req := List.getElem_mem hi
    have he1emp : e1 ∈ req.employees :=
      feasible_mem _ _ _ (hs.cands_feasible _ hmem1 e1 he1)
    have hno := hs.no_overlap e1 he1emp
    rw [List.pairwise_iff_getElem] at hno
    have hrel := hno i j hi hj hij
    have hact1 : activeFor sol e1.id ((allSlots req)[i]) := by
      unfold activeFor
      rw [hopen1]
      exact ⟨⟨e1, he1, rfl⟩, hv1⟩
    have hact2 : activeFor sol e1.id ((allSlots req)[j]) := by
      unfold activeFor
      rw [hopen2]
      refine ⟨⟨e2, he2, hemp.symm⟩, ?_⟩
      rw [hemp]
      exact hv2
    have hdisj := hrel hact1 hact2
    unfold slotHigh slotLow at hdisj
    rw [hday] at hdisj
    omega

/-- The full exact-path response (locked segments followed by solved ones)
is pairwise compatible for pairs of non-locked segments. -/
theorem exact_pairwise (req : SolveRequest) (sol : ExactSol)
    (hs : Satisfies req sol) :
    (exactResponse req sol).assignments.Pairwise noClashNonLocked := by
  have hassign : (exactResponse req sol).assignments =
      req.locked_assignments.map lockedSeg ++ solvedSegs req sol := rfl
  rw [hassign]
  refine List.pairwise_append.mpr ⟨?_, solvedSegs_pairwise req sol hs, ?_⟩
  · refine List.pairwise_map.mpr (List.pairwise_of_forall ?_)
    intro a b hlocked
    exact absurd hlocked (by simp [lockedSeg])
  · intro a ha b hb hlocked
    rcases List.mem_map.mp ha with ⟨la, -, rfl⟩
    exact absurd hlocked (by simp [lockedSeg])

/-- Candidates whose ids all differ from the target id contribute no
filtered minutes. -/
theorem cands_filter_sum_zero (sol : ExactSol) (sh : Shift) (n : Int)
    (eid : String) :
    ∀ l : List Employee, (∀ e ∈ l, ¬ e.id = eid) →
      (((l.filterMap (fun e =>
          if sol.val e.id sh.id n then some (newSegOf sh n e.id) else none)).filter
            (fun x => x.employee_id = eid)).map segDur).sum = 0 := by
  intro l
  induction l with
  | nil => intro _; simp
  | cons e2 l2 ih2 =>
    intro hni
    by_cases hv2 : sol.val e2.id sh.id n = true
    · rw [List.filterMap_cons_some (by rw [if_pos hv2])]
      have hne : ¬ ((newSegOf sh n e2.id).employee_id = eid) :=
        hni e2 (List.mem_cons_self _ _)
      simp only [List.filter_cons, decide_eq_true_eq, if_neg hne]
      exact ih2 (fun b hb => hni b (List.mem_cons_of_mem _ hb))
    · rw [List.filterMap_cons_none (by rw [if_neg hv2])]
      exact ih2 (fun b hb => hni b (List.mem_cons_of_mem _ hb))

/-- Filtered-duration sum of a candidate list's solved segments, for one
employee id, assuming candidate ids are distinct: at most one candidate
matches, and its segment has the shift-template duration. -/
theorem cands_filter_sum (sol : ExactSol) (sh : Shift) (n : Int) (eid : String) :
    ∀ l : List Employee, l.Pairwise (fun a b => a.id ≠ b.id) →
      (((l.filterMap (fun e =>
          if sol.val e.id sh.id n then some (newSegOf sh n e.id) else none)).filter
            (fun x => x.employee_id = eid)).map segDur).sum =
        (if (∃ e ∈ l, e.id = eid) ∧ sol.val eid sh.id n = true then
          sh.end_minute - sh.start_minute else 0) := by
  intro l
  induction l with
  | nil => intro _; simp
  | cons e l ih =>
    intro hnd
    rcases List.pairwise_cons.mp hnd with ⟨hhead, htail⟩
    by_cases he : e.id = eid
    · by_cases hv : sol.val e.id sh.id n = true
      · rw [List.filterMap_cons_some (by rw [if_pos hv])]
        have hcond : ((∃ x ∈ e :: l, x.id = eid) ∧ sol.val eid sh.id n = true) := by
          refine ⟨⟨e, List.mem_cons_self _ _, he⟩, ?_⟩
          rw [← he]; exact hv
        rw [if_pos hcond]
        have hzero := cands_filter_sum_zero sol sh n eid l
          (fun b hb => by
            have hne2 : e.id ≠ b.id := hhead b hb
            rw [← he]
            exact fun hc => hne2 hc.symm)
        have hkeep : ((newSegOf sh n e.id).employee_id = eid) := he
        simp only [List.filter_cons, decide_eq_true_eq, if_pos hkeep,
          List.map_cons, List.sum_cons, hzero]
        simp [newSegOf, segDur]
      · rw [List.filterMap_cons_none (by rw [if_neg hv])]
        rw [ih htail]
        have hvv : ¬ sol.val eid sh.id n = true := by rw [← he]; exact hv
        simp [hvv]
    · have hex : ((∃ x ∈ e :: l, x.id = eid)) ↔ (∃ x ∈ l, x.id = eid) := by
        constructor
        · rintro ⟨x, hx, hxe⟩
          rcases List.mem_cons.mp hx with rfl | hx2
          · exact absurd hxe he
          · exact ⟨x, hx2, hxe⟩
        · rintro ⟨x, hx, hxe⟩
          exact ⟨x, List.mem_cons_of_mem _ hx, hxe⟩
      have hiff : ((∃ x ∈ e :: l, x.id = eid) ∧ sol.val eid sh.id n = true) ↔
          ((∃ x ∈ l, x.id = eid) ∧ sol.val eid sh.id n = true) :=
        and_congr_left (fun _ => hex)
      by_cases hv : sol.val e.id sh.id n = true
      · rw [List.filterMap_cons_some (by rw [if_pos hv])]
        have hne : ¬ ((newSegOf sh n e.id).employee_id = eid) := he
        simp only [List.filter_cons, decide_eq_true_eq, if_neg hne]
        rw [ih htail]
        by_cases hrest : (∃ x ∈ l, x.id = eid) ∧ sol.val eid sh.id n = true
        · rw [if_pos hrest, if_pos (hiff.mpr hrest)]
        · rw [if_neg hrest, if_neg (fun hc => hrest (hiff.mp hc))]
      · rw [List.filterMap_cons_none (by rw [if_neg hv])]
        rw [ih htail]
        by_cases hrest : (∃ x ∈ l, x.id = eid) ∧ sol.val eid sh.id n = true
        · rw [if_pos hrest, if_pos (hiff.mpr hrest)]
        · rw [if_neg hrest, if_neg (fun hc => hrest (hiff.mp hc))]

/-- Summing one employee id's solved-segment durations slot by slot yields
the workload-constraint sum `Σ slot.duration * assign_var`. -/
theorem solved_filter_sum_aux (sol : ExactSol) (eid : String) :
    ∀ ls : List ShiftSlot,
      (∀ s ∈ ls, (sol.cands s.shift s.slot_number).Pairwise
        (fun a b => a.id ≠ b.id)) →
      (((ls.flatMap (slotSolvedSegs sol)).filter
          (fun x => x.employee_id = eid)).map segDur).sum =
        ((ls.map (fun s =>
          if s.locked_employee_id = none ∧
              (∃ e ∈ sol.cands s.shift s.slot_number, e.id = eid) ∧
              sol.val eid s.shift.id s.slot_number = true then
            s.shift.end_minute - s.shift.start_minute
          else 0)).sum) := by
  intro ls
  induction ls with
  | nil => intro _; simp
  | cons s ls ih =>
    intro hnd
    simp only [List.flatMap_cons, List.map_cons, List.sum_cons,
      List.filter_append, List.map_append, List.sum_append]
    rw [ih (fun t ht => hnd t (List.mem_cons_of_mem _ ht))]
    congr 1
    unfold slotSolvedSegs
    by_cases hl : s.locked_employee_id = none
    · rw [if_pos hl]
      rw [cands_filter_sum sol s.shift s.slot_number eid _
        (hnd s (List.mem_cons_self _ _))]
      by_cases hc : (∃ e ∈ sol.cands s.shift s.slot_number, e.id = eid) ∧
          sol.val eid s.shift.id s.slot_number = true
      · rw [if_pos hc, if_pos ⟨hl, hc.1, hc.2⟩]
      · rw [if_neg hc, if_neg (fun h3 => hc ⟨h3.2.1, h3.2.2⟩)]
    · rw [if_neg hl, if_neg (fun h3 => hl h3.1)]
      simp

/-- Under the model constraints, each request employee's summed segment
durations in the exact-path response stay within the contract-derived
weekly limit. -/
theorem exact_weekly_limit (req : SolveRequest) (sol : ExactSol)
    (hs : Satisfies req sol) :
    ∀ e ∈ req.employees,
      (((exactResponse req sol).assignments.filter
        (fun s => s.employee_id = e.id)).map segDur).sum ≤ getWeeklyLimit e := by
  intro e he
  have hassign : (exactResponse req sol).assignments =
      req.locked_assignments.map lockedSeg ++ solvedSegs req sol := rfl
  rw [hassign, List.filter_append, List.map_append, List.sum_append,
    locked_filter_sum]
  have hbridge := solved_filter_sum_aux sol e.id (allSlots req)
    (fun s hsmem => hs.cands_nodup s hsmem)
  have hsolved : solvedSegs req sol = (allSlots req).flatMap (slotSolvedSegs sol) := rfl
  rw [hsolved, hbridge]
  exact hs.workload_le e he

/-- Control-flow dispatch of `solve`: every produced response comes from the
quick-infeasible short-circuit, the greedy path, or the exact path. -/
theorem solve_cases (req : SolveRequest) (res : Option ExactSol)
    (resp : SolveResponse) (h : solve req res = some resp) :
    (quickFeasibilityCheck req = false ∧
      resp = createInfeasibleResponse req ("Quick feasibility check failed")) ∨
    solveGreedy req = some resp ∨
    (∃ sol, res = some sol ∧ resp = exactResponse req sol) := by
  unfold solve at h
  by_cases hq : quickFeasibilityCheck req = false
  · rw [if_pos hq] at h
    injection h with h
    exact Or.inl ⟨hq, h.symm⟩
  · rw [if_neg hq] at h
    by_cases hbig : 50 < req.shifts.length ∨ 25 < req.employees.length
    · rw [if_pos hbig] at h
      exact Or.inr (Or.inl h)
    · rw [if_neg hbig] at h
      cases res with
      | some sol =>
        injection h with h
        exact Or.inr (Or.inr ⟨sol, rfl, h.symm⟩)
      | none => exact Or.inr (Or.inl h)

/-- Characterization of the quick feasibility check returning false: no
employees, or some shift with no feasible employee while uncovered slots are
disallowed. -/
theorem quick_false_iff (req : SolveRequest) :
    quickFeasibilityCheck req = false ↔
      req.employees = [] ∨ (req.options.allow_uncovered = false ∧
        ∃ sh ∈ req.shifts, findFeasibleEmployeesForShift sh req.employees = []) := by
  unfold quickFeasibilityCheck
  by_cases he : req.employees.isEmpty
  · rw [if_pos he]
    simp [List.isEmpty_iff.mp he]
  · rw [if_neg he]
    have he2 : ¬ req.employees = [] := fun hc => he (by simp [hc])
    by_cases hsh : req.shifts.isEmpty
    · rw [if_pos hsh]
      rw [List.isEmpty_iff] at hsh
      simp [he2, hsh]
    · rw [if_neg hsh]
      rw [List.all_eq_false]
      constructor
      · rintro ⟨sh, hmem, hp⟩
        simp only [Bool.or_eq_true, Bool.not_eq_true', not_or,
          Bool.not_eq_true] at hp
        refine Or.inr ⟨hp.2, sh, hmem, ?_⟩
        have hie : (findFeasibleEmployeesForShift sh req.employees).isEmpty = true := by
          simpa using hp.1
        rwa [List.isEmpty_iff] at hie
      · intro hr
        rcases hr with hemp | ⟨hallow, sh, hmem, hfeas⟩
        · exact absurd hemp he2
        · exact ⟨sh, hmem, by simp [hfeas, hallow]⟩

/-- C5: a request failing the quick feasibility check (no employees, or some
shift with zero feasible employees while allow_uncovered is false) yields,
for any oracle outcome, the short-circuit response: status "INFEASIBLE",
empty assignments, and the fixed non-empty explanation string — no model is
consulted (the result is independent of the oracle). -/
theorem c5_quick_infeasible (req : SolveRequest) (res : Option ExactSol)
    (hq : quickFeasibilityCheck req = false) :
    solve req res =
      some (createInfeasibleResponse req ("Quick feasibility check failed")) ∧
    (createInfeasibleResponse req ("Quick feasibility check failed")).metrics.status =
      "INFEASIBLE" ∧
    (createInfeasibleResponse req ("Quick feasibility check failed")).assignments = [] ∧
    (createInfeasibleResponse req ("Quick feasibility check failed")).infeasible_reason =
      some ("Quick feasibility check failed") ∧
    ("Quick feasibility check failed" : String) ≠ "" ∧
    (quickFeasibilityCheck req = false ↔
      req.employees = [] ∨ (req.options.allow_uncovered = false ∧
        ∃ sh ∈ req.shifts, findFeasibleEmployeesForShift sh req.employees = [])) := by
  refine ⟨?_, rfl, rfl, rfl, by decide, quick_false_iff req⟩
  unfold solve
  rw [if_pos hq]

/-- C5 witness: the request with no employees short-circuits to the
infeasible response with empty assignments. -/
theorem c5_quick_infeasible_witness :
    solve c2req none =
      some (createInfeasibleResponse c2req ("Quick feasibility check failed")) ∧
    (createInfeasibleResponse c2req ("Quick feasibility check failed")).assignments = [] := by
  have h := c5_quick_infeasible c2req none (by decide)
  exact ⟨h.1, h.2.2.1⟩

/-- C6 (amended): a request passing the quick feasibility check whose shift
count or employee count exceeds the threshold (50 shifts / 25 employees) is
solved by the greedy path, so any produced response reports status
"GREEDY_SOLUTION".  The quick-check hypothesis is necessary — see the
counterexample. -/
theorem c6_amended_greedy_status (req : SolveRequest) (res : Option ExactSol)
    (resp : SolveResponse) (hq : quickFeasibilityCheck req = true)
    (hbig : 50 < req.shifts.length ∨ 25 < req.employees.length)
    (h : solve req res = some resp) :
    resp.metrics.status = "GREEDY_SOLUTION" := by
  unfold solve at h
  rw [hq] at h
  rw [if_neg (by simp)] at h
  rw [if_pos hbig] at h
  rcases solveGreedy_spec req resp h with ⟨st0, -, -, hstatus, -⟩
  exact hstatus

/-- C6 witness: 26 employees with no shifts pass the quick check and are
routed to the greedy algorithm. -/
theorem c6_amended_greedy_status_witness :
    solve c1req none = some c1resp ∧
    c1resp.metrics.status = "GREEDY_SOLUTION" :=
  ⟨by decide,
    c6_amended_greedy_status c1req none c1resp (by decide)
      (Or.inr (by decide)) (by decide)⟩

/-- C6 counterexample: a request with 26 employees (over the threshold)
whose single shift no one can staff fails the quick feasibility check first,
so the response status is "INFEASIBLE", not "GREEDY_SOLUTION". -/
theorem c6_big_not_greedy_cex :
    (50 < c6req.shifts.length ∨ 25 < c6req.employees.length) ∧
    (solve c6req none).map (fun r => r.metrics.status) = some ("INFEASIBLE") ∧
    ("INFEASIBLE" : String) ≠ "GREEDY_SOLUTION" := by
  refine ⟨Or.inr (by decide), by decide, by decide⟩

/-- C4 (amended): an exact-solver model that proves infeasible (oracle
outcome `none`) makes `solve` fall back to the greedy algorithm rather than
running diagnostics, and no response of `solve` ever carries a diagnostics
explanation — the only explanation ever emitted is the quick-check string
(the diagnostics branch of the source is unreachable). -/
theorem c4_amended_fallback (req : SolveRequest) :
    (quickFeasibilityCheck req = true → req.shifts.length ≤ 50 →
      req.employees.length ≤ 25 → solve req none = solveGreedy req) ∧
    (∀ (res : Option ExactSol) (resp : SolveResponse), solve req res = some resp →
      resp.infeasible_reason = none ∨
      resp.infeasible_reason = some ("Quick feasibility check failed")) := by
  constructor
  · intro hq h1 h2
    unfold solve
    rw [hq]
    rw [if_neg (by simp)]
    rw [if_neg (by omega)]
  · intro res resp h
    rcases solve_cases req res resp h with ⟨-, rfl⟩ | hgr | ⟨sol, -, rfl⟩
    · right; rfl
    · rcases solveGreedy_spec req resp hgr with ⟨st0, -, -, -, -, -, hreason⟩
      exact Or.inl hreason
    · left; rfl

/-- C4 witness: a concrete small request on which the `none` outcome routes
to the greedy algorithm, and a produced response without diagnostics. -/
theorem c4_amended_fallback_witness :
    solve wreq2 none = solveGreedy wreq2 ∧
    (wresp2.infeasible_reason = none ∨
      wresp2.infeasible_reason = some ("Quick feasibility check failed")) :=
  ⟨(c4_amended_fallback wreq2).1 (by decide) (by decide) (by decide),
    (c4_amended_fallback wreq2).2 none wresp2 (by decide)⟩

/-- C4 counterexample: `c4req`'s model is infeasible (two overlapping
locked intervals of one employee violate the no-overlap constraint whatever
the valuation), yet `solve` returns a greedy response with two assignments
and no explanation string — not the claimed zero-assignment diagnostic
response. -/
theorem c4_no_diagnostics_cex :
    (∀ sol : ExactSol, ¬ Satisfies c4req sol) ∧
    (solve c4req none).map (fun r => r.assignments.length) = some 2 ∧
    (solve c4req none).map (fun r => r.infeasible_reason) = some none := by
  refine ⟨?_, by decide, by decide⟩
  intro sol hs
  have hemp : c4emp ∈ c4req.employees := by decide
  have hno := hs.no_overlap c4emp hemp
  have hslots : allSlots c4req =
      [{ shift := c4sh1, slot_number := 0, locked_employee_id := some ("e1") },
       { shift := c4sh2, slot_number := 0, locked_employee_id := some ("e1") }] := by
    decide
  rw [hslots] at hno
  rcases List.pairwise_cons.mp hno with ⟨hrel, -⟩
  have h12 := hrel _ (List.mem_cons_self _ _) rfl rfl
  revert h12
  decide

/-- C2 (amended): for every request that passes the quick feasibility check,
any produced response (greedy or exact path) contains each locked assignment
verbatim — same shift id, day, employee, minutes and slot — flagged
locked=true.  The quick-check hypothesis is necessary — see the
counterexample. -/
theorem c2_amended_locked_preserved (req : SolveRequest) (res : Option ExactSol)
    (resp : SolveResponse) (hq : quickFeasibilityCheck req = true)
    (h : solve req res = some resp) :
    ∀ la ∈ req.locked_assignments, lockedSeg la ∈ resp.assignments := by
  rcases solve_cases req res resp h with ⟨hq2, -⟩ | hgr | ⟨sol, -, rfl⟩
  · rw [hq] at hq2; exact absurd hq2 (by simp)
  · exact greedy_contains_locked req resp hgr
  · intro la hla
    have hassign : (exactResponse req sol).assignments =
        req.locked_assignments.map lockedSeg ++ solvedSegs req sol := rfl
    rw [hassign]
    exact List.mem_append_left _ (List.mem_map_of_mem lockedSeg hla)

/-- C2 witness: the locked assignment of `wreq2` appears verbatim in the
produced response. -/
theorem c2_amended_locked_preserved_witness :
    solve wreq2 none = some wresp2 ∧ lockedSeg wlock2 ∈ wresp2.assignments :=
  ⟨by decide,
    c2_amended_locked_preserved wreq2 none wresp2 (by decide) (by decide)
      wlock2 (by decide)⟩

/-- C2 counterexample: a request with a locked assignment but no employees
fails the quick check; its response has an empty assignment list, so the
locked assignment does not appear. -/
theorem c2_locked_dropped_cex :
    c2la ∈ c2req.locked_assignments ∧
    (solve c2req none).map (fun r => r.assignments) = some [] := by
  decide

/-- C3 (amended): both paths compute
`coverage_ratio = total_assigned_minutes / total_capacity_minutes` (1.0 when
the capacity total is not positive), but they disagree on the total: the
exact path sums the durations of the full assignment list (locked segments
included) while the greedy path sums only segments with locked=false. -/
theorem c3_amended_metrics :
    (∀ (req : SolveRequest) (resp : SolveResponse), solveGreedy req = some resp →
      resp.metrics.total_assigned_minutes =
        ((resp.assignments.filter (fun s => !s.locked)).map segDur).sum ∧
      resp.metrics.coverage_ratio =
        (if 0 < totalCapacity req then
          ((resp.metrics.total_assigned_minutes : Int) : ℚ) /
            ((totalCapacity req : Int) : ℚ)
         else 1)) ∧
    (∀ (req : SolveRequest) (sol : ExactSol),
      (exactResponse req sol).metrics.total_assigned_minutes =
        ((exactResponse req sol).assignments.map segDur).sum ∧
      (exactResponse req sol).metrics.coverage_ratio =
        (if 0 < totalCapacity req then
          (((exactResponse req sol).metrics.total_assigned_minutes : Int) : ℚ) /
            ((totalCapacity req : Int) : ℚ)
         else 1)) := by
  constructor
  · intro req resp h
    rcases solveGreedy_spec req resp h with ⟨st0, -, hassign, -, htotal, hratio, -⟩
    constructor
    · rw [htotal, hassign]
    · rw [hratio, htotal]
  · intro req sol
    exact ⟨rfl, rfl⟩

/-- C3 witness: the metric formulas evaluated on a concrete greedy response
and a concrete exact-path response. -/
theorem c3_amended_metrics_witness :
    (solveGreedy wreq1 = some wresp1 ∧
      wresp1.metrics.total_assigned_minutes =
        ((wresp1.assignments.filter (fun s => !s.locked)).map segDur).sum) ∧
    (exactResponse wreq2 trivSol).metrics.total_assigned_minutes =
      ((exactResponse wreq2 trivSol).assignments.map segDur).sum :=
  ⟨⟨by rfl, (c3_amended_metrics.1 wreq1 wresp1 (by rfl)).1⟩,
    (c3_amended_metrics.2 wreq2 trivSol).1⟩

/-- C3 counterexample: a greedy response whose `total_assigned_minutes` is 0
while the sum over the full assignments list is 60 — locked segments are
excluded from the greedy total, contradicting the claim. -/
theorem c3_greedy_total_cex :
    (solve c3req none).map (fun r => r.metrics.total_assigned_minutes) = some 0 ∧
    (solve c3req none).map (fun r => (r.assignments.map segDur).sum) = some 60 := by
  decide

/-- C1 (amended): in every response `solve` produces — by the quick check,
the greedy path, or the exact path under the model constraints — any two
segments that are both newly solved (locked=false) and belong to the same
employee on the same day have disjoint minute intervals.  Pairs involving a
locked segment are not protected — see the counterexample. -/
theorem c1_amended_no_overlap (req : SolveRequest) (res : Option ExactSol)
    (resp : SolveResponse)
    (hsound : ∀ sol, res = some sol → Satisfies req sol)
    (h : solve req res = some resp) :
    resp.assignments.Pairwise noClashNonLocked := by
  rcases solve_cases req res resp h with ⟨-, rfl⟩ | hgr | ⟨sol, hres, rfl⟩
  · exact List.Pairwise.nil
  · refine (greedy_pairwise req resp hgr).imp ?_
    intro a b hg hal hbl hemp hday
    exact hg hbl hemp hday
  · exact exact_pairwise req sol (hsound sol hres)

/-- C1 witness: the no-overlap property on a concrete greedy response with
an actual assignment. -/
theorem c1_amended_no_overlap_witness :
    solve wreq1 none = some wresp1 ∧
    wresp1.assignments.Pairwise noClashNonLocked :=
  ⟨by rfl,
    c1_amended_no_overlap wreq1 none wresp1
      (fun sol hc => Option.noConfusion hc) (by rfl)⟩

/-- C1 counterexample: two overlapping same-day locked assignments of one
employee are both emitted verbatim by the greedy path, so the response
contains an overlapping same-employee same-day pair. -/
theorem c1_locked_overlap_cex :
    (solve c1req none).map (fun r => r.assignments) =
      some [lockedSeg c1la1, lockedSeg c1la2] ∧
    (lockedSeg c1la1).employee_id = (lockedSeg c1la2).employee_id ∧
    (lockedSeg c1la1).day = (lockedSeg c1la2).day ∧
    ¬((lockedSeg c1la1).end_minute ≤ (lockedSeg c1la2).start_minute ∨
      (lockedSeg c1la2).end_minute ≤ (lockedSeg c1la1).start_minute) := by
  decide

/-- C7 (amended): assuming validated inputs (non-negative weekly targets),
pairwise-distinct employee ids, and locked minutes within each employee's
weekly limit, every response `solve` produces keeps each employee's summed
segment durations (locked included) within the contract-derived weekly
limit.  Without the locked-minutes hypothesis the bound fails — see the
counterexample. -/
theorem c7_amended_weekly_limit (req : SolveRequest) (res : Option ExactSol)
    (resp : SolveResponse)
    (hsound : ∀ sol, res = some sol → Satisfies req sol)
    (hids : (req.employees.map Employee.id).Nodup)
    (hlock : ∀ e ∈ req.employees,
      lockedMinutes req.locked_assignments e.id ≤ getWeeklyLimit e)
    (hwf : ∀ e ∈ req.employees, 0 ≤ e.weekly_minutes_target)
    (h : solve req res = some resp) :
    ∀ e ∈ req.employees,
      ((resp.assignments.filter (fun s => s.employee_id = e.id)).map segDur).sum ≤
        getWeeklyLimit e := by
  have hlim0 : ∀ e ∈ req.employees, 0 ≤ getWeeklyLimit e := by
    intro e he
    unfold getWeeklyLimit
    split_ifs
    · norm_num
    · norm_num
    · norm_num
    · exact hwf e he
  rcases solve_cases req res resp h with ⟨-, rfl⟩ | hgr | ⟨sol, hres, rfl⟩
  · intro e he
    have : (createInfeasibleResponse req
        ("Quick feasibility check failed")).assignments = [] := rfl
    rw [this]
    simpa using hlim0 e he
  · exact greedy_weekly_limit req resp hids hlock hgr
  · exact exact_weekly_limit req sol (hsound sol hres)

/-- C7 witness: the weekly-limit bound evaluated for the employee of a
concrete request routed to the greedy path. -/
theorem c7_amended_weekly_limit_witness :
    ((wresp2.assignments.filter (fun s => s.employee_id = wEmp.id)).map segDur).sum ≤
      getWeeklyLimit wEmp :=
  c7_amended_weekly_limit wreq2 none wresp2
    (fun sol hc => Option.noConfusion hc) (by decide) (by decide) (by decide)
    (by decide) wEmp (by decide)

/-- C7 counterexample: a student employee whose locked assignments alone sum
to 1300 minutes appears in the greedy response with 1300 assigned minutes,
exceeding the 1200-minute student weekly limit. -/
theorem c7_locked_exceeds_cex :
    stuEmp 0 ∈ c7req.employees ∧
    (solve c7req none).map (fun r =>
      ((r.assignments.filter (fun s => s.employee_id = "e0")).map segDur).sum) =
      some 1300 ∧
    getWeeklyLimit (stuEmp 0) = 1200 ∧
    ¬ ((1300 : Int) ≤ 1200) := by
  refine ⟨by decide, by decide, by decide, by decide⟩

/-- C8: for a shift declaring a work type and an employee of a different
home store, case-insensitive membership of the shift's role among the
employee's role names suffices for the role step — no hypothesis on
`role_ids` is needed — so together with the cross-store flag and an
availability window containing the shift, the employee is feasible. -/
theorem c8_cross_store_name_match (sh : Shift) (emps : List Employee)
    (e : Employee) (w : String) (hwt : sh.work_type_id = some w)
    (hmem : e ∈ emps) (hstore : ¬ e.home_store_id = sh.store_id)
    (hacross : e.can_work_across_stores = true)
    (hname : pyLower sh.role ∈ e.role_names.map pyLower)
    (hav : ∃ av ∈ e.availability, av.day = sh.day ∧ av.is_off = false ∧
      av.start_minute ≤ sh.start_minute ∧ sh.end_minute ≤ av.end_minute) :
    e ∈ findFeasibleEmployeesForShift sh emps := by
  refine List.mem_filter.mpr ⟨hmem, ?_⟩
  have hnm : nameMatchFails sh e = false := by
    unfold nameMatchFails
    simp [hname]
  unfold feasiblePred
  simp only [Bool.and_eq_true]
  refine ⟨⟨?_, ?_⟩, ?_⟩
  · by_cases hw2 : wtTruthy sh.work_type_id = true
    · rw [if_pos hw2, if_neg hstore]
      simp [hnm]
    · rw [if_neg hw2]
      simp [hnm]
  · simp [hacross]
  · rcases hav with ⟨av, hin, hd, hoff, h1, h2⟩
    refine List.any_eq_true.mpr ⟨av, hin, ?_⟩
    simp [hd, hoff, h1, h2]

/-- C8 witness: a concrete cross-store employee whose role identifiers
differ from the shift's work-type id but whose role names match the role
case-insensitively is feasible. -/
theorem c8_cross_store_name_match_witness :
    crEmp ∈ findFeasibleEmployeesForShift crShift [crEmp] ∧
    ¬ ("W1" ∈ crEmp.role_ids) :=
  ⟨c8_cross_store_name_match crShift [crEmp] crEmp "W1" (by decide)
      (by decide) (by decide) (by decide) (by decide)
      ⟨fullAvail Weekday.MON, by decide, by decide, by decide, by decide,
        by decide⟩,
    by decide⟩

/-- C9: an employee with an empty role-name list is never rejected by the
role step whenever name-based matching applies (no work-type id on the
shift, or a different home store): feasibility is then exactly the store
check together with the availability-containment check, whatever the
shift's role. -/
theorem c9_empty_role_names (sh : Shift) (emps : List Employee) (e : Employee)
    (hnames : e.role_names = [])
    (hcase : sh.work_type_id = none ∨ ¬ e.home_store_id = sh.store_id) :
    (e ∈ findFeasibleEmployeesForShift sh emps ↔
      e ∈ emps ∧
      (e.home_store_id = sh.store_id ∨ e.can_work_across_stores = true) ∧
      ∃ av ∈ e.availability, av.day = sh.day ∧ av.is_off = false ∧
        av.start_minute ≤ sh.start_minute ∧ sh.end_minute ≤ av.end_minute) := by
  have hnm : nameMatchFails sh e = false := by
    unfold nameMatchFails
    simp [hnames]
  have hA : (if wtTruthy sh.work_type_id = true then
      (if e.home_store_id = sh.store_id then
        (e.role_ids.contains (sh.work_type_id.getD ""))
       else !nameMatchFails sh e)
     else !nameMatchFails sh e) = true := by
    rcases hcase with hw | hstore
    · rw [if_neg (by simp [hw, wtTruthy])]
      simp [hnm]
    · by_cases hwt : wtTruthy sh.work_type_id = true
      · rw [if_pos hwt, if_neg hstore]
        simp [hnm]
      · rw [if_neg hwt]
        simp [hnm]
  unfold findFeasibleEmployeesForShift
  rw [List.mem_filter]
  unfold feasiblePred
  rw [hA]
  constructor
  · rintro ⟨hm, hrest⟩
    simp only [Bool.true_and, Bool.and_eq_true, Bool.or_eq_true,
      decide_eq_true_eq, List.any_eq_true] at hrest
    rcases hrest with ⟨hst, av, hin, hcond⟩
    simp only [Bool.and_eq_true, decide_eq_true_eq, Bool.not_eq_true'] at hcond
    rcases hcond with ⟨⟨⟨h1, h2⟩, h3⟩, h4⟩
    exact ⟨hm, by simpa using hst, av, hin, h1, h2, h3, h4⟩
  · rintro ⟨hm, hst, av, hin, h1, h2, h3, h4⟩
    refine ⟨hm, ?_⟩
    simp only [Bool.true_and, Bool.and_eq_true, Bool.or_eq_true,
      decide_eq_true_eq, List.any_eq_true]
    refine ⟨by simpa using hst, av, hin, ?_⟩
    simp [h1, h2, h3, h4]

/-- C9 witness: a concrete employee with no role names is feasible for a
shift of an unrelated role, given store and availability. -/
theorem c9_empty_role_names_witness :
    nrEmp ∈ findFeasibleEmployeesForShift nrShift [nrEmp] :=
  (c9_empty_role_names nrShift [nrEmp] nrEmp (by decide)
      (Or.inl (by decide))).mpr
    ⟨by decide, Or.inl (by decide),
      fullAvail Weekday.MON, by decide, by decide, by decide, by decide,
      by decide⟩

/-- C10: in the greedy path a (shift, slot) pair matched by any locked
assignment on shift id and slot number alone never receives a newly solved
segment, even when the lock's day or minutes differ from the template; the
slot expander instead pins a slot only when a locked assignment matches the
full (shift id, day, start, end, slot) tuple of the shift template. -/
theorem c10_locked_slot_semantics (req : SolveRequest) (resp : SolveResponse)
    (h : solveGreedy req = some resp) :
    (∀ la ∈ req.locked_assignments, ∀ seg ∈ resp.assignments,
      seg.locked = false → ¬(seg.shift_id = la.shift_id ∧ seg.slot = la.slot)) ∧
    (∀ s ∈ allSlots req, ∀ eid, s.locked_employee_id = some eid →
      ∃ la ∈ req.locked_assignments, la.shift_id = s.shift.id ∧
        la.day = s.shift.day ∧ la.start_minute = s.shift.start_minute ∧
        la.end_minute = s.shift.end_minute ∧ la.slot = s.slot_number ∧
        la.employee_id = eid) := by
  constructor
  · intro la hla seg hseg hfalse
    exact greedy_skips_locked_slots req resp h seg hseg hfalse la hla
  · intro s hs eid heid
    unfold allSlots buildShiftSlots at hs
    rcases List.mem_flatMap.mp hs with ⟨sh, hsh, hmem⟩
    rcases List.mem_map.mp hmem with ⟨n, -, rfl⟩
    simp only at heid
    rcases Option.map_eq_some'.mp heid with ⟨la, hfind, hemp⟩
    have hla := List.find?_some hfind
    have hmemla := List.mem_of_find?_eq_some hfind
    rw [List.mem_reverse] at hmemla
    simp only [lockedMatchesSlot, decide_eq_true_eq] at hla
    exact ⟨la, hmemla, hla.1, hla.2.1, hla.2.2.1, hla.2.2.2.1, hla.2.2.2.2,
      hemp⟩

/-- C10 witness: a lock agreeing with the shift only on (shift id, slot)
makes the greedy path skip the slot (only the locked segment is emitted)
while the slot expander leaves the slot unpinned. -/
theorem c10_locked_slot_semantics_witness :
    solveGreedy wreq10 = some w10resp ∧
    ((allSlots wreq10).map (fun s => s.locked_employee_id)) = [none] ∧
    (∀ la ∈ wreq10.locked_assignments, ∀ seg ∈ w10resp.assignments,
      seg.locked = false →
      ¬(seg.shift_id = la.shift_id ∧ seg.slot = la.slot)) :=
  ⟨by rfl, by decide, (c10_locked_slot_semantics wreq10 w10resp (by rfl)).1⟩

end Scheduler
